import Mathlib

/-!
Verification of the importance-sampling core of the rayrender renderer
(`src/pdf.h`, `src/triangle.h`) against its natural-language specification.

The C++ code is shallowly embedded: `Float` becomes `ℝ`, the stateful
random generator and the quasi sampler become explicit state-passing on a
stream of uniform numbers, and each C++ method becomes a Lean function on
the object's fields. External collaborators that are declared in headers
not present in the repository snapshot (`vec3`, `onb`, the microfacet
distribution, the hitable list) are modelled from the specification and
marked as such in their doc comments.
-/

open Real

/-- Modelled from the spec: 3-component vector of `Float` (the repository's
`vec3.h` is not in the snapshot). -/
structure vec3 where
  x : ℝ
  y : ℝ
  z : ℝ

namespace vec3

/-- Modelled from the spec: componentwise addition. -/
def add (a b : vec3) : vec3 := ⟨a.x + b.x, a.y + b.y, a.z + b.z⟩

/-- Modelled from the spec: componentwise subtraction (`b - a` builds the
triangle edges). -/
def sub (a b : vec3) : vec3 := ⟨a.x - b.x, a.y - b.y, a.z - b.z⟩

/-- Modelled from the spec: scalar multiple. -/
def smul (t : ℝ) (a : vec3) : vec3 := ⟨t * a.x, t * a.y, t * a.z⟩

/-- Modelled from the spec: euclidean dot product. -/
def dot (a b : vec3) : ℝ := a.x * b.x + a.y * b.y + a.z * b.z

/-- Modelled from the spec: cross product, used for the triangle's
geometric normal. -/
def cross (a b : vec3) : vec3 :=
  ⟨a.y * b.z - a.z * b.y, a.z * b.x - a.x * b.z, a.x * b.y - a.y * b.x⟩

/-- Modelled from the spec: squared euclidean length. -/
def squared_length (a : vec3) : ℝ := a.x * a.x + a.y * a.y + a.z * a.z

/-- Modelled from the spec: euclidean length. -/
noncomputable def length (a : vec3) : ℝ := Real.sqrt a.squared_length

/-- Modelled from the spec: `v / |v|`, the normalization used both by
`unit_vector` and by `make_unit_vector`. -/
noncomputable def unit_vector (a : vec3) : vec3 := smul (1 / a.length) a

end vec3

/-- Stream-of-uniforms model of the stateful pseudo-random generator
`random_gen`: a sequence of uniform numbers and a cursor. -/
structure RngState where
  seq : ℕ → ℝ
  pos : ℕ

/-- `random_gen::unif_rand()`: return the next uniform number and advance
the cursor by one. -/
def RngState.unif_rand (s : RngState) : ℝ × RngState :=
  (s.seq s.pos, ⟨s.seq, s.pos + 1⟩)

/-- Stream-of-uniforms model of the quasi `Sampler`: `Get1D` yields one
number, `Get2D` yields two. -/
structure SamplerState where
  seq : ℕ → ℝ
  pos : ℕ

/-- `Sampler::Get1D()`: one quasi-random number, cursor advances by one. -/
def SamplerState.get1D (s : SamplerState) : ℝ × SamplerState :=
  (s.seq s.pos, ⟨s.seq, s.pos + 1⟩)

/-- `Sampler::Get2D()`: two quasi-random numbers, cursor advances by two. -/
def SamplerState.get2D (s : SamplerState) : (ℝ × ℝ) × SamplerState :=
  ((s.seq s.pos, s.seq (s.pos + 1)), ⟨s.seq, s.pos + 2⟩)

/-- Modelled from the spec: orthonormal frame of three axes (`onbh.h` is
not in the snapshot). -/
structure onb where
  u : vec3
  v : vec3
  w : vec3

namespace onb

/-- Modelled from the spec: `buildFromAxis(direction)` — the `w` axis is
the normalized input direction, and `u`, `v` complete the frame by the
standard cross-product construction. -/
noncomputable def build_from_w (n : vec3) : onb :=
  let w := n.unit_vector
  let a : vec3 := if |w.x| > 0.9 then ⟨0, 1, 0⟩ else ⟨1, 0, 0⟩
  let v := (vec3.cross w a).unit_vector
  let u := vec3.cross w v
  ⟨u, v, w⟩

/-- Modelled from the spec: `toLocal(worldDir)` — coordinates of a world
vector in the frame. -/
def world_to_local (o : onb) (a : vec3) : vec3 :=
  ⟨vec3.dot a o.u, vec3.dot a o.v, vec3.dot a o.w⟩

/-- Modelled from the spec: `toWorld(localDir)` — linear combination of
the axes. -/
def local_to_world (o : onb) (a : vec3) : vec3 :=
  vec3.add (vec3.add (vec3.smul a.x o.u) (vec3.smul a.y o.v)) (vec3.smul a.z o.w)

end onb

/-- `class cosine_pdf` state: the frame built from the input axis
(`src/pdf.h` lines 22-42). -/
structure cosine_pdf where
  uvw : onb

/-- `cosine_pdf::cosine_pdf(const vec3& w)`: build the frame from `w`. -/
noncomputable def cosine_pdf.ctor (w : vec3) : cosine_pdf :=
  ⟨onb.build_from_w w⟩

/-- `cosine_pdf::value(direction, rng)` (`src/pdf.h` lines 27-34): the
cosine of the normalized direction against the frame's `w` axis, divided
by π when positive, else 0.  The method receives the generator by
reference and its body never touches it, so the embedding returns the
state unchanged. -/
noncomputable def cosine_pdf.value (c : cosine_pdf) (direction : vec3)
    (rng : RngState) : ℝ × RngState :=
  let cosine := vec3.dot direction.unit_vector c.uvw.w
  if cosine > 0 then (cosine / π, rng) else (0, rng)

/-- `Float` with the IEEE `INFINITY` sentinel that `glossy_pdf::value`
can return. -/
inductive RFloat where
  | val : ℝ → RFloat
  | inf : RFloat

/-- `class micro_pdf` state (`src/pdf.h` lines 44-67): frame, stored
frame-local incoming direction, and the external microfacet
distribution's `Pdf` function (modelled from the spec as an opaque
density function of `wo`, `wi`, `wh`). -/
structure micro_pdf where
  uvw : onb
  wi : vec3
  distribution : vec3 → vec3 → vec3 → ℝ

/-- `micro_pdf::micro_pdf` (`src/pdf.h` lines 46-49): build the frame
from `w` and store `wi = -unit_vector(world_to_local(wi_))`. -/
noncomputable def micro_pdf.ctor (w wi_ : vec3)
    (distribution : vec3 → vec3 → vec3 → ℝ) : micro_pdf :=
  let uvw := onb.build_from_w w
  ⟨uvw, vec3.smul (-1) (uvw.world_to_local wi_).unit_vector, distribution⟩

/-- `micro_pdf::value(direction, rng)` (`src/pdf.h` lines 50-54): the
half-vector density with the reflection Jacobian; the generator is never
touched by the body. -/
noncomputable def micro_pdf.value (m : micro_pdf) (direction : vec3)
    (rng : RngState) : ℝ × RngState :=
  let wo := (m.uvw.world_to_local direction).unit_vector
  let wh := (vec3.add m.wi wo).unit_vector
  (m.distribution wo m.wi wh / (4 * vec3.dot wo wh), rng)

/-- `class glossy_pdf` state (`src/pdf.h` lines 69-103): same fields as
`micro_pdf`. -/
structure glossy_pdf where
  uvw : onb
  wi : vec3
  distribution : vec3 → vec3 → vec3 → ℝ

/-- `glossy_pdf::glossy_pdf` (`src/pdf.h` lines 71-74): identical to the
`micro_pdf` constructor. -/
noncomputable def glossy_pdf.ctor (w wi_ : vec3)
    (distribution : vec3 → vec3 → vec3 → ℝ) : glossy_pdf :=
  let uvw := onb.build_from_w w
  ⟨uvw, vec3.smul (-1) (uvw.world_to_local wi_).unit_vector, distribution⟩

/-- `glossy_pdf::value(direction, rng)` (`src/pdf.h` lines 75-82):
`INFINITY` when the local outgoing direction and the stored incoming
direction lie on opposite hemisphere sides, otherwise the 50/50 blend of
the cosine density `AbsCosTheta(wi)·(1/π)` and the microfacet density
with its reflection Jacobian; the generator is never touched. -/
noncomputable def glossy_pdf.value (g : glossy_pdf) (direction : vec3)
    (rng : RngState) : RFloat × RngState :=
  let wo := (g.uvw.world_to_local direction).unit_vector
  if wo.z * g.wi.z < 0 then (RFloat.inf, rng)
  else
    let wh := (vec3.add g.wi wo).unit_vector
    (RFloat.val (0.5 * (|g.wi.z| * (1 / π) +
      g.distribution wo g.wi wh / (4 * vec3.dot wo wh))), rng)

/-- Number of entries of the per-lobe arrays `Float v[pMax + 1]` and
`const Float v_[pMax + 1]` in `hair_pdf` (`src/pdf.h` lines 109 and 137):
valid indices are `0 .. pMax`. -/
def hairVArraySize (pMax : ℕ) : ℕ := pMax + 1

/-- The indices `p` visited by the copy loop
`for (int p = 0; p <= pMax + 1; ++p) { v[p] = v_[p]; }` of the `hair_pdf`
constructor (`src/pdf.h` lines 117-119): `p` runs from `0` while
`p ≤ pMax + 1`, i.e. over `0 .. pMax + 1`. -/
def hair_pdf.ctorVLoopIndices (pMax : ℕ) : List ℕ := List.range (pMax + 2)

/-- Abstract interface of the scene-sampling collection `hitable_list`
(declared in `hitablelist.h`, not in the snapshot; modelled from the
spec: an area-to-solid-angle density and a direction sampler in both
randomness forms). -/
structure hitable_list where
  pdf_value : vec3 → vec3 → RngState → ℝ × RngState
  random_rng : vec3 → RngState → vec3 × RngState
  random_sampler : vec3 → SamplerState → vec3 × SamplerState

/-- `class hitable_pdf` state (`src/pdf.h` lines 141-155): the collection
pointer and the fixed origin. -/
structure hitable_pdf where
  ptr : hitable_list
  o : vec3

/-- `hitable_pdf::hitable_pdf(p, origin)` (`src/pdf.h` line 143). -/
def hitable_pdf.ctor (p : hitable_list) (origin : vec3) : hitable_pdf :=
  ⟨p, origin⟩

/-- `hitable_pdf::value(direction, rng)` (`src/pdf.h` lines 144-146):
delegate to `ptr->pdf_value(o, direction, rng)`.  The method writes no
member, so the embedding returns the object unchanged alongside the
result. -/
def hitable_pdf.value (hp : hitable_pdf) (direction : vec3)
    (rng : RngState) : (ℝ × RngState) × hitable_pdf :=
  (hp.ptr.pdf_value hp.o direction rng, hp)

/-- `hitable_pdf::generate(random_gen&)` (`src/pdf.h` lines 147-149):
delegate to `ptr->random(o, rng)`; no member is written. -/
def hitable_pdf.generate_rng (hp : hitable_pdf) (rng : RngState) :
    (vec3 × RngState) × hitable_pdf :=
  (hp.ptr.random_rng hp.o rng, hp)

/-- `hitable_pdf::generate(Sampler*)` (`src/pdf.h` lines 150-152):
delegate to `ptr->random(o, sampler)`; no member is written. -/
def hitable_pdf.generate_sampler (hp : hitable_pdf) (s : SamplerState) :
    (vec3 × SamplerState) × hitable_pdf :=
  (hp.ptr.random_sampler hp.o s, hp)

/-- Abstract view of a `pdf*` component as the mixture sees it through
virtual dispatch: its `value(direction, rng)` method. -/
structure PdfT where
  value : vec3 → RngState → ℝ × RngState

/-- The `cosine_pdf` variant viewed through the abstract `pdf` interface. -/
noncomputable def cosine_pdf.toPdfT (c : cosine_pdf) : PdfT :=
  ⟨fun direction rng => c.value direction rng⟩

/-- `mixture_pdf::value(direction, rng)` (`src/pdf.h` lines 163-165):
`0.5 * p[0]->value(direction, rng) + 0.5 * p[1]->value(direction, rng)`,
the generator reference threading through both component calls. -/
def mixture_pdf.value (p0 p1 : PdfT) (direction : vec3)
    (rng : RngState) : ℝ × RngState :=
  let r0 := p0.value direction rng
  let r1 := p1.value direction r0.2
  (0.5 * r0.1 + 0.5 * r1.1, r1.2)

/-- `mixture_pdf::generate(random_gen&)` (`src/pdf.h` lines 166-172):
draw one uniform number; if it is `< 0.5` delegate to `p[0]->generate`,
else to `p[1]->generate`, the delegate receiving the generator after the
draw. -/
noncomputable def mixture_pdf.generate_rng
    (g0 g1 : RngState → vec3 × RngState) (rng : RngState) :
    vec3 × RngState :=
  let r := rng.unif_rand
  if r.1 < 0.5 then g0 r.2 else g1 r.2

/-- `mixture_pdf::generate(Sampler*)` (`src/pdf.h` lines 173-179): same
with `sampler->Get1D()`. -/
noncomputable def mixture_pdf.generate_sampler
    (g0 g1 : SamplerState → vec3 × SamplerState) (s : SamplerState) :
    vec3 × SamplerState :=
  let r := s.get1D
  if r.1 < 0.5 then g0 r.2 else g1 r.2

/-- The three resources the triangle destructor may release. -/
inductive TriResource where
  | mat
  | alphaMask
  | bumpTex
deriving DecidableEq

/-- `class triangle` state (`src/triangle.h` lines 44-52).  The opaque
`material*`, `alpha_texture*` and `bump_texture*` pointers are modelled
by their non-nullness, which is all the destructor inspects. -/
structure triangle where
  normal : vec3
  a : vec3
  b : vec3
  c : vec3
  na : vec3
  nb : vec3
  nc : vec3
  edge1 : vec3
  edge2 : vec3
  area : ℝ
  normals_provided : Bool
  single : Bool
  mp : Bool
  alpha_mask : Bool
  bump_tex : Bool

/-- Flat constructor (`src/triangle.h` lines 18-27): `edge1 = b-a`,
`edge2 = c-a`, `normal = cross(edge1, edge2)`, `area = normal.length()/2`,
then `normal.make_unit_vector()`; `normals_provided = false`. -/
noncomputable def triangle.ctorFlat (a b c : vec3) (single : Bool)
    (mp alpha_mask bump_tex : Bool) : triangle :=
  let edge1 := vec3.sub b a
  let edge2 := vec3.sub c a
  let normal0 := vec3.cross edge1 edge2
  { normal := normal0.unit_vector
    a := a, b := b, c := c
    na := ⟨0, 0, 0⟩, nb := ⟨0, 0, 0⟩, nc := ⟨0, 0, 0⟩
    edge1 := edge1, edge2 := edge2
    area := normal0.length / 2
    normals_provided := false
    single := single
    mp := mp, alpha_mask := alpha_mask, bump_tex := bump_tex }

/-- Shading-normals constructor (`src/triangle.h` lines 28-37): same
derived fields except that `normal = cross(edge1, edge2)` is stored
without a `make_unit_vector()` call, and `normals_provided = true`. -/
noncomputable def triangle.ctorNormals (a b c na nb nc : vec3)
    (single : Bool) (mp alpha_mask bump_tex : Bool) : triangle :=
  let edge1 := vec3.sub b a
  let edge2 := vec3.sub c a
  let normal0 := vec3.cross edge1 edge2
  { normal := normal0
    a := a, b := b, c := c
    na := na, nb := nb, nc := nc
    edge1 := edge1, edge2 := edge2
    area := normal0.length / 2
    normals_provided := true
    single := single
    mp := mp, alpha_mask := alpha_mask, bump_tex := bump_tex }

/-- `triangle::~triangle()` (`src/triangle.h` lines 11-17): when `single`
is set, delete each of the three pointers that is non-null; otherwise
delete nothing.  The result lists the released resources in program
order. -/
def triangle.dtorDeletes (t : triangle) : List TriResource :=
  if t.single then
    (if t.mp then [TriResource.mat] else []) ++
    (if t.alpha_mask then [TriResource.alphaMask] else []) ++
    (if t.bump_tex then [TriResource.bumpTex] else [])
  else []

/-- Concrete `glossy_pdf` state used as evaluation input: the canonical
frame, stored incoming direction `(0,0,1)`, and an identically-zero
microfacet density. -/
noncomputable def glossyW : glossy_pdf :=
  ⟨⟨⟨1, 0, 0⟩, ⟨0, 1, 0⟩, ⟨0, 0, 1⟩⟩, ⟨0, 0, 1⟩, fun _ _ _ => 0⟩

theorem vec3.squared_length_nonneg (a : vec3) : 0 ≤ a.squared_length := by
  unfold vec3.squared_length
  nlinarith [sq_nonneg a.x, sq_nonneg a.y, sq_nonneg a.z]

theorem vec3.length_nonneg (a : vec3) : 0 ≤ a.length := Real.sqrt_nonneg _

theorem vec3.length_eq_zero_iff (a : vec3) :
    a.length = 0 ↔ a = ⟨0, 0, 0⟩ := by
  unfold vec3.length
  rw [Real.sqrt_eq_zero (vec3.squared_length_nonneg a)]
  constructor
  · intro h
    have hx : a.x = 0 ∧ a.y = 0 ∧ a.z = 0 := by
      unfold vec3.squared_length at h
      refine ⟨?_, ?_, ?_⟩ <;>
        nlinarith [sq_nonneg a.x, sq_nonneg a.y, sq_nonneg a.z]
    cases a
    simp only [vec3.mk.injEq]
    exact ⟨hx.1, hx.2.1, hx.2.2⟩
  · intro h
    subst h
    unfold vec3.squared_length
    ring

theorem vec3.length_pos_of_ne_zero (a : vec3) (h : a ≠ ⟨0, 0, 0⟩) :
    0 < a.length := by
  rcases lt_or_eq_of_le (vec3.length_nonneg a) with hlt | heq
  · exact hlt
  · exact absurd ((vec3.length_eq_zero_iff a).mp heq.symm) h

/-- Normalizing a nonzero vector yields a unit vector. -/
theorem vec3.length_unit_vector (a : vec3) (h : a ≠ ⟨0, 0, 0⟩) :
    a.unit_vector.length = 1 := by
  have hL : 0 < a.length := vec3.length_pos_of_ne_zero a h
  have hL2 : a.length * a.length = a.x * a.x + a.y * a.y + a.z * a.z := by
    have hm := Real.mul_self_sqrt (vec3.squared_length_nonneg a)
    simpa [vec3.length, vec3.squared_length] using hm
  have hsq : a.unit_vector.squared_length = 1 := by
    simp only [vec3.unit_vector, vec3.smul, vec3.squared_length]
    have hLne : a.length ≠ 0 := ne_of_gt hL
    field_simp
    nlinarith [hL2]
  unfold vec3.length
  rw [hsq]
  exact Real.sqrt_one

/-- Evaluation: the up axis is already unit. -/
theorem vec3.unit_vector_z1 : vec3.unit_vector ⟨0, 0, 1⟩ = ⟨0, 0, 1⟩ := by
  have h : vec3.length ⟨0, 0, 1⟩ = 1 := by
    simp [vec3.length, vec3.squared_length]
  simp [vec3.unit_vector, h, vec3.smul]

/-- Evaluation: the down axis is already unit. -/
theorem vec3.unit_vector_neg_z1 :
    vec3.unit_vector ⟨0, 0, -1⟩ = ⟨0, 0, -1⟩ := by
  have h : vec3.length ⟨0, 0, -1⟩ = 1 := by
    simp [vec3.length, vec3.squared_length]
  simp [vec3.unit_vector, h, vec3.smul]

/-- C1: the claim says the `hair_pdf` constructor copy loop touches
exactly the `pMax+1` in-bounds indices `0 .. pMax` of the per-lobe
variance arrays.  In the code the loop guard is `p <= pMax + 1`, so for
every `pMax` the loop performs `pMax+2` iterations and its last
iteration accesses index `pMax+1`, which is not below the declared array
size `pMax+1`: an out-of-bounds read of `v_` and write of `v`. -/
theorem hair_pdf_ctor_v_copy_out_of_bounds (pMax : ℕ) :
    (hair_pdf.ctorVLoopIndices pMax).length = hairVArraySize pMax + 1 ∧
    pMax + 1 ∈ hair_pdf.ctorVLoopIndices pMax ∧
    ¬ pMax + 1 < hairVArraySize pMax := by
  refine ⟨?_, ?_, ?_⟩
  · simp [hair_pdf.ctorVLoopIndices, hairVArraySize]
  · simp [hair_pdf.ctorVLoopIndices, List.mem_range]
  · simp [hairVArraySize]

/-- C5: `mixture_pdf::value` returns `0.5·p0.value + 0.5·p1.value`, the
arithmetic mean of the two component densities (the generator reference
threads from the first component call into the second). -/
theorem mixture_value_is_mean (p0 p1 : PdfT) (d : vec3) (rng : RngState) :
    (mixture_pdf.value p0 p1 d rng).1 =
      0.5 * (p0.value d rng).1 + 0.5 * (p1.value d (p0.value d rng).2).1 ∧
    (mixture_pdf.value p0 p1 d rng).1 =
      ((p0.value d rng).1 + (p1.value d (p0.value d rng).2).1) / 2 := by
  constructor
  · rfl
  · show 0.5 * (p0.value d rng).1 + 0.5 * (p1.value d (p0.value d rng).2).1 = _
    ring

/-- C6: a mixture of two identical cosine pdfs built from the same axis
has exactly the value of a single cosine pdf built from that axis, for
every direction and generator state. -/
theorem mixture_of_identical_cosine_eq_cosine (axis d : vec3)
    (rng : RngState) :
    mixture_pdf.value (cosine_pdf.ctor axis).toPdfT
      (cosine_pdf.ctor axis).toPdfT d rng =
      (cosine_pdf.ctor axis).value d rng := by
  simp only [mixture_pdf.value, cosine_pdf.toPdfT, cosine_pdf.value]
  split
  · refine Prod.ext ?_ rfl
    show 0.5 * _ + 0.5 * _ = _
    ring
  · refine Prod.ext ?_ rfl
    show 0.5 * 0 + 0.5 * 0 = (0 : ℝ)
    ring

/-- C7: both forms of `mixture_pdf::generate` draw exactly one uniform
number (the state handed to the delegate is the input state advanced by
one position, with the same underlying stream), pick `p0` when the draw
is `< 0.5` and `p1` otherwise, and hand the delegate only the post-draw
state, so the consumed draw is never reused. -/
theorem mixture_generate_single_draw
    (g0 g1 : RngState → vec3 × RngState) (s : RngState)
    (h0 h1 : SamplerState → vec3 × SamplerState) (t : SamplerState) :
    (s.unif_rand.1 < 0.5 →
      mixture_pdf.generate_rng g0 g1 s = g0 s.unif_rand.2) ∧
    (¬ s.unif_rand.1 < 0.5 →
      mixture_pdf.generate_rng g0 g1 s = g1 s.unif_rand.2) ∧
    s.unif_rand.1 = s.seq s.pos ∧
    s.unif_rand.2.pos = s.pos + 1 ∧
    s.unif_rand.2.seq = s.seq ∧
    (t.get1D.1 < 0.5 →
      mixture_pdf.generate_sampler h0 h1 t = h0 t.get1D.2) ∧
    (¬ t.get1D.1 < 0.5 →
      mixture_pdf.generate_sampler h0 h1 t = h1 t.get1D.2) ∧
    t.get1D.1 = t.seq t.pos ∧
    t.get1D.2.pos = t.pos + 1 ∧
    t.get1D.2.seq = t.seq := by
  refine ⟨fun h => ?_, fun h => ?_, rfl, rfl, rfl,
    fun h => ?_, fun h => ?_, rfl, rfl, rfl⟩
  · exact if_pos h
  · exact if_neg h
  · exact if_pos h
  · exact if_neg h

/-- C7 witness: with a stream that yields `0`, the draw `0 < 0.5`
selects the first delegate, which receives the stream advanced to
position 1. -/
theorem mixture_generate_single_draw_witness :
    ((RngState.mk (fun _ => 0) 0).unif_rand.1 < 0.5) ∧
    mixture_pdf.generate_rng
      (fun s => (⟨1, 2, 3⟩, s)) (fun s => (⟨4, 5, 6⟩, s))
      (RngState.mk (fun _ => 0) 0) =
      (⟨1, 2, 3⟩, RngState.mk (fun _ => 0) 1) := by
  have hlt : ((RngState.mk (fun _ => 0) 0) : RngState).unif_rand.1 < 0.5 := by
    show (0 : ℝ) < 0.5
    norm_num
  have h := (mixture_generate_single_draw
    (fun s => (⟨1, 2, 3⟩, s)) (fun s => (⟨4, 5, 6⟩, s))
    (RngState.mk (fun _ => 0) 0)
    (fun s => (⟨1, 2, 3⟩, s)) (fun s => (⟨4, 5, 6⟩, s))
    (SamplerState.mk (fun _ => 0) 0)).1 hlt
  exact ⟨hlt, h⟩

/-- C8: `hitable_pdf` is a pure delegator with a fixed origin: `value`
returns the collection's `pdf_value` at the stored origin, both
`generate` forms return the collection's `random` at the stored origin,
and no operation modifies the object (in particular the origin). -/
theorem hitable_pdf_delegates_fixed_origin (p : hitable_list)
    (origin d : vec3) (rng : RngState) (smp : SamplerState) :
    (hitable_pdf.ctor p origin).o = origin ∧
    ((hitable_pdf.ctor p origin).value d rng).1 = p.pdf_value origin d rng ∧
    ((hitable_pdf.ctor p origin).value d rng).2 = hitable_pdf.ctor p origin ∧
    ((hitable_pdf.ctor p origin).generate_rng rng).1 = p.random_rng origin rng ∧
    ((hitable_pdf.ctor p origin).generate_rng rng).2 = hitable_pdf.ctor p origin ∧
    ((hitable_pdf.ctor p origin).generate_sampler smp).1 = p.random_sampler origin smp ∧
    ((hitable_pdf.ctor p origin).generate_sampler smp).2 = hitable_pdf.ctor p origin :=
  ⟨rfl, rfl, rfl, rfl, rfl, rfl, rfl⟩

/-- C9: the triangle destructor releases each of material, alpha-mask
texture and bump texture exactly once when `single` is true and that
pointer is non-null, and releases nothing at all when `single` is
false. -/
theorem triangle_dtor_single_ownership (t : triangle) :
    t.dtorDeletes.count TriResource.mat =
      (if t.single && t.mp then 1 else 0) ∧
    t.dtorDeletes.count TriResource.alphaMask =
      (if t.single && t.alpha_mask then 1 else 0) ∧
    t.dtorDeletes.count TriResource.bumpTex =
      (if t.single && t.bump_tex then 1 else 0) ∧
    (t.single = false → t.dtorDeletes = []) := by
  cases hs : t.single <;> cases hm : t.mp <;> cases ha : t.alpha_mask <;>
    cases hb : t.bump_tex <;>
    simp [triangle.dtorDeletes, hs, hm, ha, hb]

/-- C9 witness: a triangle built with `single = false` releases nothing,
and one built with `single = true` and a non-null material releases the
material exactly once. -/
theorem triangle_dtor_single_ownership_witness :
    (triangle.ctorFlat ⟨0, 0, 0⟩ ⟨1, 0, 0⟩ ⟨0, 1, 0⟩ false true true
      true).dtorDeletes = [] ∧
    (triangle.ctorFlat ⟨0, 0, 0⟩ ⟨1, 0, 0⟩ ⟨0, 1, 0⟩ true true true
      true).dtorDeletes.count TriResource.mat = 1 := by
  constructor
  · exact (triangle_dtor_single_ownership _).2.2.2 rfl
  · have h := (triangle_dtor_single_ownership
      (triangle.ctorFlat ⟨0, 0, 0⟩ ⟨1, 0, 0⟩ ⟨0, 1, 0⟩ true true true
        true)).1
    simpa using h

/-- C10: the density evaluations of `cosine_pdf`, `micro_pdf` and
`glossy_pdf` neither read nor advance the generator: the returned
density is the same for any two generator states, and the state after
the call is the input state. -/
theorem value_ignores_generator (c : cosine_pdf) (m : micro_pdf)
    (g : glossy_pdf) (d : vec3) (s1 s2 : RngState) :
    (c.value d s1).1 = (c.value d s2).1 ∧ (c.value d s1).2 = s1 ∧
    (m.value d s1).1 = (m.value d s2).1 ∧ (m.value d s1).2 = s1 ∧
    (g.value d s1).1 = (g.value d s2).1 ∧ (g.value d s1).2 = s1 := by
  refine ⟨?_, ?_, rfl, rfl, ?_, ?_⟩ <;>
    simp only [cosine_pdf.value, glossy_pdf.value] <;> split <;> rfl

/-- C3: `cosine_pdf::value` returns `cosθ/π` when
`cosθ = dot(normalize(d), w)` is strictly positive and `0` otherwise, so
it is never negative; and for the pdf built from axis `(0,0,1)` the
frame's `w` axis is that input, `value((0,0,1)) = 1/π` and
`value((0,0,-1)) = 0`. -/
theorem cosine_value_spec :
    (∀ (c : cosine_pdf) (d : vec3) (rng : RngState),
      (0 < vec3.dot d.unit_vector c.uvw.w →
        (c.value d rng).1 = vec3.dot d.unit_vector c.uvw.w / π) ∧
      (vec3.dot d.unit_vector c.uvw.w ≤ 0 → (c.value d rng).1 = 0) ∧
      0 ≤ (c.value d rng).1) ∧
    (cosine_pdf.ctor ⟨0, 0, 1⟩).uvw.w = ⟨0, 0, 1⟩ ∧
    (∀ rng : RngState,
      ((cosine_pdf.ctor ⟨0, 0, 1⟩).value ⟨0, 0, 1⟩ rng).1 = 1 / π) ∧
    (∀ rng : RngState,
      ((cosine_pdf.ctor ⟨0, 0, 1⟩).value ⟨0, 0, -1⟩ rng).1 = 0) := by
  have hw : (cosine_pdf.ctor ⟨0, 0, 1⟩).uvw.w = ⟨0, 0, 1⟩ := by
    simp only [cosine_pdf.ctor, onb.build_from_w]
    exact vec3.unit_vector_z1
  refine ⟨?_, hw, ?_, ?_⟩
  · intro c d rng
    refine ⟨?_, ?_, ?_⟩
    · intro h
      simp only [cosine_pdf.value]
      rw [if_pos h]
    · intro h
      simp only [cosine_pdf.value]
      rw [if_neg (not_lt_of_le h)]
    · simp only [cosine_pdf.value]
      split
      · next h => exact div_nonneg (le_of_lt h) (le_of_lt Real.pi_pos)
      · exact le_refl 0
  · intro rng
    simp only [cosine_pdf.value, hw, vec3.unit_vector_z1]
    rw [if_pos]
    · norm_num [vec3.dot]
    · norm_num [vec3.dot]
  · intro rng
    simp only [cosine_pdf.value, hw, vec3.unit_vector_neg_z1]
    rw [if_neg]
    norm_num [vec3.dot]

/-- C3 witness: for the pdf built from axis `(0,0,1)` and the direction
`(0,0,1)` the cosine is positive and the first clause gives
`value = cosθ/π` there. -/
theorem cosine_value_spec_witness :
    0 < vec3.dot (vec3.unit_vector ⟨0, 0, 1⟩)
      (cosine_pdf.ctor ⟨0, 0, 1⟩).uvw.w ∧
    ((cosine_pdf.ctor ⟨0, 0, 1⟩).value ⟨0, 0, 1⟩
      (RngState.mk (fun _ => 0) 0)).1 =
      vec3.dot (vec3.unit_vector ⟨0, 0, 1⟩)
        (cosine_pdf.ctor ⟨0, 0, 1⟩).uvw.w / π := by
  have hw : (cosine_pdf.ctor ⟨0, 0, 1⟩).uvw.w = ⟨0, 0, 1⟩ :=
    cosine_value_spec.2.1
  have hpos : 0 < vec3.dot (vec3.unit_vector ⟨0, 0, 1⟩)
      (cosine_pdf.ctor ⟨0, 0, 1⟩).uvw.w := by
    rw [hw, vec3.unit_vector_z1]
    norm_num [vec3.dot]
  exact ⟨hpos, (cosine_value_spec.1 (cosine_pdf.ctor ⟨0, 0, 1⟩) ⟨0, 0, 1⟩
    (RngState.mk (fun _ => 0) 0)).1 hpos⟩

/-- C4: `glossy_pdf::value` returns the `INFINITY` sentinel exactly when
the frame-local outgoing direction and the stored incoming direction lie
on opposite hemisphere sides (`wo.z · wi.z < 0`); otherwise it returns
`0.5·(|wi.z|/π + distribution(wo, wi, wh)/(4·dot(wo, wh)))` with
`wh = normalize(wi + wo)`. -/
theorem glossy_value_spec (g : glossy_pdf) (d : vec3) (rng : RngState) :
    ((g.value d rng).1 = RFloat.inf ↔
      ((g.uvw.world_to_local d).unit_vector).z * g.wi.z < 0) ∧
    (¬ ((g.uvw.world_to_local d).unit_vector).z * g.wi.z < 0 →
      (g.value d rng).1 = RFloat.val (0.5 * (|g.wi.z| / π +
        g.distribution ((g.uvw.world_to_local d).unit_vector) g.wi
          ((vec3.add g.wi ((g.uvw.world_to_local d).unit_vector)).unit_vector) /
          (4 * vec3.dot ((g.uvw.world_to_local d).unit_vector)
            ((vec3.add g.wi
              ((g.uvw.world_to_local d).unit_vector)).unit_vector))))) := by
  simp only [glossy_pdf.value]
  split
  · next h =>
    constructor
    · exact ⟨fun _ => h, fun _ => rfl⟩
    · intro hn
      exact absurd h hn
  · next h =>
    constructor
    · constructor
      · intro hcontra
        exact absurd hcontra (by simp)
      · intro hcond
        exact absurd hcond h
    · intro _
      rw [mul_one_div]

/-- C4 witness: for the concrete state `glossyW` and direction `(0,0,1)`
the hemisphere condition fails and the finite blend is returned. -/
theorem glossy_value_spec_witness :
    ¬ ((glossyW.uvw.world_to_local ⟨0, 0, 1⟩).unit_vector).z *
      glossyW.wi.z < 0 ∧
    (glossyW.value ⟨0, 0, 1⟩ (RngState.mk (fun _ => 0) 0)).1 =
      RFloat.val (0.5 * (1 / π)) := by
  have hwo : (glossyW.uvw.world_to_local ⟨0, 0, 1⟩).unit_vector =
      ⟨0, 0, 1⟩ := by
    have hl : glossyW.uvw.world_to_local ⟨0, 0, 1⟩ = ⟨0, 0, 1⟩ := by
      simp [glossyW, onb.world_to_local, vec3.dot]
    rw [hl]
    exact vec3.unit_vector_z1
  have hcond : ¬ ((glossyW.uvw.world_to_local ⟨0, 0, 1⟩).unit_vector).z *
      glossyW.wi.z < 0 := by
    rw [hwo]
    show ¬ (1 : ℝ) * (1 : ℝ) < 0
    norm_num
  have h := (glossy_value_spec glossyW ⟨0, 0, 1⟩
    (RngState.mk (fun _ => 0) 0)).2 hcond
  rw [hwo] at h
  refine ⟨hcond, ?_⟩
  rw [h]
  norm_num [glossyW]

/-- C2 counterexample: the shading-normals constructor stores the raw
cross product, so for vertices `(0,0,0)`, `(2,0,0)`, `(0,2,0)` the
stored `normal` is `(0,0,4)`, whose length is `4`, not a unit vector. -/
theorem triangle_normals_ctor_normal_not_unit :
    (triangle.ctorNormals ⟨0, 0, 0⟩ ⟨2, 0, 0⟩ ⟨0, 2, 0⟩ ⟨0, 0, 1⟩
      ⟨0, 0, 1⟩ ⟨0, 0, 1⟩ false false false false).normal =
      ⟨0, 0, 4⟩ ∧
    vec3.length ⟨0, 0, 4⟩ = 4 ∧ (4 : ℝ) ≠ 1 := by
  refine ⟨?_, ?_, by norm_num⟩
  · simp only [triangle.ctorNormals, vec3.sub, vec3.cross]
    norm_num
  · have h16 : Real.sqrt 16 = 4 := by
      rw [show (16 : ℝ) = 4 ^ 2 by norm_num]
      exact Real.sqrt_sq (by norm_num)
    simp only [vec3.length, vec3.squared_length]
    norm_num [h16]

/-- C2 amended: the flat constructor stores
`normal = normalize(cross(edge1, edge2))`, a unit vector whenever the
cross product is nonzero; the shading-normals constructor stores the
unnormalized `cross(edge1, edge2)`. -/
theorem triangle_normal_constructors (a b c na nb nc : vec3)
    (single mp am bt : Bool) :
    (triangle.ctorFlat a b c single mp am bt).normal =
      (vec3.cross (vec3.sub b a) (vec3.sub c a)).unit_vector ∧
    (vec3.cross (vec3.sub b a) (vec3.sub c a) ≠ ⟨0, 0, 0⟩ →
      ((triangle.ctorFlat a b c single mp am bt).normal).length = 1) ∧
    (triangle.ctorNormals a b c na nb nc single mp am bt).normal =
      vec3.cross (vec3.sub b a) (vec3.sub c a) := by
  refine ⟨rfl, ?_, rfl⟩
  intro h
  show (vec3.cross (vec3.sub b a) (vec3.sub c a)).unit_vector.length = 1
  exact vec3.length_unit_vector _ h

/-- C2 witness: for the unit right triangle `(0,0,0)`, `(1,0,0)`,
`(0,1,0)` the cross product is `(0,0,1) ≠ 0` and the flat constructor's
stored normal has length 1. -/
theorem triangle_normal_constructors_witness :
    vec3.cross (vec3.sub ⟨1, 0, 0⟩ ⟨0, 0, 0⟩)
      (vec3.sub ⟨0, 1, 0⟩ ⟨0, 0, 0⟩) ≠ (⟨0, 0, 0⟩ : vec3) ∧
    ((triangle.ctorFlat ⟨0, 0, 0⟩ ⟨1, 0, 0⟩ ⟨0, 1, 0⟩ true true true
      true).normal).length = 1 := by
  have hne : vec3.cross (vec3.sub ⟨1, 0, 0⟩ ⟨0, 0, 0⟩)
      (vec3.sub ⟨0, 1, 0⟩ ⟨0, 0, 0⟩) ≠ (⟨0, 0, 0⟩ : vec3) := by
    simp only [vec3.cross, vec3.sub]
    intro hcontra
    rw [vec3.mk.injEq] at hcontra
    norm_num at hcontra
  exact ⟨hne, (triangle_normal_constructors ⟨0, 0, 0⟩ ⟨1, 0, 0⟩ ⟨0, 1, 0⟩
    ⟨0, 0, 0⟩ ⟨0, 0, 0⟩ ⟨0, 0, 0⟩ true true true true).2.1 hne⟩
